import Mathlib

/-
Verification of the BannedFiles NZBGet hook script (src/BannedFiles.py).

The script is shallowly embedded: environment variables become an `Env`
record of optional strings, the filesystem facts the script observes become
an `Fs` record, and the two remote-control calls are modelled by a `Remote`
record holding the data the host would return.  Python exceptions are
modelled by `Except` / an explicit `Outcome.crashed` constructor, and the
observable effects of one invocation (exit disposition, emitted [NZB]
sentinel lines, issued move-to-top commands, final marker-directory
contents) are collected in a `RunResult`.
-/

namespace BannedFiles

/-! ### String helpers mirroring the Python library functions used -/

/-- Python `str.replace(' ', '')` composed with `str.split(',')`:
splitting keeps empty fields, so `''.split(',') == ['']`. -/
def splitComma : List Char → List (List Char)
  | [] => [[]]
  | c :: rest =>
    match splitComma rest with
    | [] => [[]]
    | g :: gs => if c = ',' then [] :: g :: gs else (c :: g) :: gs

/-- `bannedExtensions` as computed at module load (src/BannedFiles.py:53):
`os.environ.get('NZBPO_BANNEDEXTENSIONS', '').replace(' ', '').split(',')`. -/
def bannedExtensions (cfg : Option String) : List String :=
  (splitComma ((cfg.getD "").data.filter (fun c => c ≠ ' '))).map (fun cs => ⟨cs⟩)

/-- Index of the last '.' in a character list, if any. -/
def lastDotIdx : List Char → Option Nat
  | [] => none
  | c :: cs =>
    match lastDotIdx cs with
    | some i => some (i + 1)
    | none => if c = '.' then some 0 else none

/-- The extension part of `os.path.splitext(name)` for a slash-free name
(entries returned by `os.listdir` never contain a path separator): the
suffix starting at the last dot, except that a name consisting of leading
dots only up to that point has no extension. -/
def splitextExt (name : String) : String :=
  match lastDotIdx name.data with
  | none => ""
  | some i =>
    if (name.data.take i).any (fun c => c ≠ '.') then ⟨name.data.drop i⟩ else ""

/-- Lower-casing of a whole string, used to state case-insensitive claims. -/
def lowerStr (s : String) : String := ⟨s.data.map Char.toLower⟩

/-! ### File Scanner (src/BannedFiles.py:163-170) -/

/-- The regular-file sublist of a directory listing, in enumeration order.
A listing entry is a pair of the entry name and an is-regular-file flag
(`os.path.isfile`). -/
def regularFiles (entries : List (String × Bool)) : List String :=
  (entries.filter (fun e => e.2)).map (fun e => e.1)

/-- `detectBannedFile` (src/BannedFiles.py:163-170): first direct regular
file whose `os.path.splitext` extension is literally a member of the
configured banned-extension list. -/
def detectBannedFile (banned : List String) (entries : List (String × Bool)) :
    Option String :=
  (regularFiles entries).find? (fun item => banned.contains (splitextExt item))

/-! ### Reorder Advisor: regex matching (src/BannedFiles.py:184-185)

`regex1 = re.compile(r'.*\.part(\d+)\.rar', re.IGNORECASE)` and
`regex2 = re.compile(r'.*\.r(\d+)', re.IGNORECASE)`, applied with
`re.match` (anchored on the left only).  With the greedy leading `.*`, a
name matches iff the literal pattern occurs at some position, and the
captured group comes from the last such position, with the digit group
taken maximally there. -/

/-- Case-insensitive test that `cs` starts with the (lower-case) literal
pattern `pat`. -/
def ciStarts : List Char → List Char → Bool
  | [], _ => true
  | _ :: _, [] => false
  | p :: ps, c :: cs => (c.toLower = p) && ciStarts ps cs

/-- The maximal leading digit run of a character list, and the rest. -/
def takeDigits : List Char → List Char × List Char
  | [] => ([], [])
  | c :: cs =>
    if c.isDigit then
      let (ds, rest) := takeDigits cs
      (c :: ds, rest)
    else ([], c :: cs)

/-- Numeric value of a decimal digit run, as Python `int` computes it. -/
def digitsVal (ds : List Char) : Nat :=
  ds.foldl (fun n c => n * 10 + (c.toNat - 48)) 0

/-- Attempt of the tail of pattern 1 at a fixed position: `.part`, one or
more digits (maximal run), `.rar`, all case-insensitive. -/
def partRarAt (cs : List Char) : Option Nat :=
  if ciStarts ".part".data cs then
    let (ds, rest) := takeDigits (cs.drop 5)
    if !ds.isEmpty && ciStarts ".rar".data rest then some (digitsVal ds) else none
  else none

/-- Attempt of the tail of pattern 2 at a fixed position: `.r` then one or
more digits, case-insensitive. -/
def rDigitsAt (cs : List Char) : Option Nat :=
  if ciStarts ".r".data cs then
    let (ds, _) := takeDigits (cs.drop 2)
    if !ds.isEmpty then some (digitsVal ds) else none
  else none

/-- Latest position at which `f` succeeds, mirroring the backtracking of
the greedy leading `.*` of both regexes. -/
def lastMatchAux (f : List Char → Option Nat) : List Char → Option Nat
  | [] => none
  | c :: cs =>
    match lastMatchAux f cs with
    | some n => some n
    | none => f (c :: cs)

/-- Captured number of `regex1.match(name)`. -/
def regexPartRar (name : String) : Option Nat := lastMatchAux partRarAt name.data

/-- Captured number of `regex2.match(name)`. -/
def regexRDigits (name : String) : Option Nat := lastMatchAux rDigitsAt name.data

/-- `regex1.match(cur_name) or regex2.match(cur_name)` followed by
`int(match.group(1))` (src/BannedFiles.py:195-197). -/
def rarNum (name : String) : Option Nat :=
  match regexPartRar name with
  | some n => some n
  | none => regexRDigits name

/-- Modelled from the spec: the claim's own reading of the split-archive
patterns, in which the WHOLE filename has the shape `<name>.part<N>.rar`
or `<name>.r<N>` (case-insensitive), i.e. the pattern is anchored at both
ends.  Used only to compare the claim's wording with the source's
left-anchored `re.match`. -/
def specArchiveN (name : String) : Option Nat :=
  let rev := name.data.map Char.toLower |>.reverse
  if ciStarts "rar.".data rev then
    let (ds, rest) := takeDigits (rev.drop 4)
    if !ds.isEmpty && ciStarts "trap.".data rest then some (digitsVal ds.reverse)
    else none
  else
    let (ds, rest) := takeDigits rev
    if !ds.isEmpty && ciStarts "r.".data rest then some (digitsVal ds.reverse)
    else none

/-! ### Reorder Advisor: selection fold (src/BannedFiles.py:186-213) -/

/-- One step of the scan over the remote file listing.  The running state
is `some (file_num, file_id, file_name)` or `none`; the update condition
`not file_num or cur_num > file_num` treats a recorded number 0 as falsy,
exactly as Python does. -/
def sortStep (st : Option (Nat × Nat × String)) (e : Nat × String) :
    Option (Nat × Nat × String) :=
  match rarNum e.2 with
  | none => st
  | some n =>
    match st with
    | none => some (n, e.1, e.2)
    | some (fn, fid, fname) =>
      if fn = 0 ∨ n > fn then some (n, e.1, e.2) else some (fn, fid, fname)

/-- The `(file_num, file_id, file_name)` triple after scanning the whole
listing, as in the loop of src/BannedFiles.py:190-201.  A listing entry is
an `(ID, Filename)` pair as parsed from the `listfiles` response. -/
def sortSelect (entries : List (Nat × String)) : Option (Nat × Nat × String) :=
  entries.foldl sortStep none

/-- The file id passed to `editqueue('FileMoveTop', ...)`, if any: the
guard `if (file_id)` is Python truthiness, so an id of 0 suppresses the
command (src/BannedFiles.py:204-211). -/
def sortCommand (entries : List (Nat × String)) : Option Nat :=
  match sortSelect entries with
  | some (_, fid, _) => if fid ≠ 0 then some fid else none
  | none => none

/-! ### Housekeeping (src/BannedFiles.py:92-119) -/

/-- Python exception kinds the script can die with. -/
inductive ExnKind
  | typeError
  | fileNotFound
  | keyError
  | valueError
deriving DecidableEq, Repr

/-- Everything `cleanUp` observes: `NZBPP_NZBID`, `NZBOP_TEMPDIR`, whether
`TEMPDIR/BannedFiles` exists, its `os.listdir` contents, the NZBID values
parsed out of the `listgroups` response, and which `os.remove` calls would
succeed. -/
structure CleanCtx where
  nzbId : Option String
  tempDir : Option String
  tempDirExists : Bool
  markerFiles : List String
  liveIds : List String
  removeOk : String → Bool

/-- Whether `cleanUp` performs the `listgroups` host query
(src/BannedFiles.py:99-101). -/
def cleanUpQueriesHost (files : List String) : Bool := 1 < files.length

/-- The `nzbids` list of src/BannedFiles.py:96-107: NZBID values of the
live queue, fetched only when more than one marker file exists. -/
def cleanUpNzbids (files liveIds : List String) : List String :=
  if 1 < files.length then liveIds else []

/-- The set difference `list(set(files)-set(nzbids))` of
src/BannedFiles.py:109, kept in listing order (only its membership is ever
observed). -/
def cleanUpOld (files liveIds : List String) : List String :=
  files.filter (fun f => !((cleanUpNzbids files liveIds).contains f))

/-- The `old_temp_files` list whose members `cleanUp` tries to delete
(src/BannedFiles.py:99-111): markers minus live ids (live ids are only
fetched when more than one marker exists), plus the current nzb id when
its marker file exists and survived the set difference. -/
def cleanUpTargets (nzbId : Option String) (files liveIds : List String) :
    List String :=
  match nzbId with
  | none => cleanUpOld files liveIds
  | some i =>
    if i ∈ files ∧ i ∉ cleanUpOld files liveIds then cleanUpOld files liveIds ++ [i]
    else cleanUpOld files liveIds

/-- `cleanUp` (src/BannedFiles.py:92-119), returning the marker files
remaining on disk.  `None + '/BannedFiles'` raises `TypeError`
(src/BannedFiles.py:94) and `os.listdir` on a missing directory raises
`FileNotFoundError` (src/BannedFiles.py:97); an individual failing
`os.remove` is caught, logged and skipped (src/BannedFiles.py:115-119). -/
def cleanUp (ctx : CleanCtx) : Except ExnKind (List String) :=
  match ctx.tempDir with
  | none => .error .typeError
  | some _ =>
    if ctx.tempDirExists then
      let targets := cleanUpTargets ctx.nzbId ctx.markerFiles ctx.liveIds
      .ok (ctx.markerFiles.filter (fun f => !(targets.contains f && ctx.removeOk f)))
    else .error .fileNotFound

/-! ### Invocation context and whole-invocation model -/

/-- The environment variables the script reads.  `some v` means the
variable is set to `v`; `none` means it is absent from `os.environ`. -/
structure Env where
  nzbnaEvent : Option String
  nzbppDirectory : Option String
  nzbopArticleCache : Option String
  nzbppStatus : Option String
  nzbprPpstatusBanned : Option String
  nzbprPpstatusBannedFile : Option String
  nzbppTotalStatus : Option String
  nzbppNzbid : Option String
  nzbopTempDir : Option String
  nzbnaDirectory : Option String
  nzbppNzbname : Option String
  nzbnaNzbname : Option String
  nzbnaNzbid : Option String
  nzbprBannedFilesSorted : Option String
  nzbpoBannedExtensions : Option String

/-- The filesystem facts the script observes in one invocation. -/
structure Fs where
  ppDirExists : Bool
  workDirEntries : List (String × Bool)
  tempDirExists : Bool
  markerFiles : List String
  removeOk : String → Bool

/-- The data the host's remote-control API would return this invocation:
the `(ID, Filename)` entries of `listfiles` for the current download and
the NZBID values of `listgroups`. -/
structure Remote where
  fileList : List (Nat × String)
  liveIds : List String

/-- The `CleanCtx` of the `cleanUp` call made by this invocation. -/
def mkCleanCtx (env : Env) (fs : Fs) (rem : Remote) : CleanCtx :=
  { nzbId := env.nzbppNzbid
    tempDir := env.nzbopTempDir
    tempDirExists := fs.tempDirExists
    markerFiles := fs.markerFiles
    liveIds := rem.liveIds
    removeOk := fs.removeOk }

/-- Disposition chosen by `startCheck` (src/BannedFiles.py:59-90),
evaluated in source order with the first match winning. -/
inductive GateAction
  | fatalUsage
  | unknownEvent
  | alreadyBad
  | dirMissing
  | totalFailure
  | proceed
deriving DecidableEq, Repr

/-- The three queue events the script knows (src/BannedFiles.py:68). -/
def knownEvents : List String := ["NZB_ADDED", "FILE_DOWNLOADED", "NZB_DOWNLOADED"]

/-- `startCheck` (src/BannedFiles.py:59-90).  Note that the version check
of line 61 precedes the unknown-event check of line 68, and that
`os.environ.get('NZBNA_EVENT') not in [..., None]` is false when the
variable is absent. -/
def startCheck (env : Env) (fs : Fs) : GateAction :=
  if !(env.nzbnaEvent.isSome || env.nzbppDirectory.isSome) || !env.nzbopArticleCache.isSome then
    .fatalUsage
  else if (match env.nzbnaEvent with
           | some e => !(knownEvents.contains e)
           | none => false) then
    .unknownEvent
  else if env.nzbppStatus == some "FAILURE/BAD" then
    .alreadyBad
  else if env.nzbppDirectory.isSome && !fs.ppDirExists then
    .dirMissing
  else if env.nzbppTotalStatus == some "FAILURE" then
    .totalFailure
  else
    .proceed

/-- How the process ends: a `sys.exit` code, or an uncaught exception. -/
inductive Outcome
  | exited (code : Nat)
  | crashed (e : ExnKind)
deriving DecidableEq, Repr

/-- Observable effects of one invocation: disposition, the emitted
`[NZB]` sentinel lines in order, the file ids sent to
`editqueue('FileMoveTop', ...)`, and the final marker-directory
contents. -/
structure RunResult where
  outcome : Outcome
  nzbLines : List String
  moveTop : List Nat
  markers : List String
deriving DecidableEq, Repr

/-- Whether Python `int()` accepts the string (optional surrounding
spaces, optional sign, one or more decimal digits). -/
def pyIntOk (s : String) : Bool :=
  let cs := (s.data.dropWhile (fun c => c = ' ')).reverse.dropWhile (fun c => c = ' ') |>.reverse
  let ds := match cs with
            | '+' :: rest => rest
            | '-' :: rest => rest
            | rest => rest
  !ds.isEmpty && ds.all Char.isDigit

/-- `sort_inner_files` (src/BannedFiles.py:172-213):
`int(os.environ.get('NZBNA_NZBID'))` raises `TypeError` when the variable
is absent and `ValueError` when it does not parse; otherwise the scan of
the `listfiles` data selects a file and the returned value is the id
passed to `editqueue('FileMoveTop', ...)`, if any. -/
def sort_inner_files (env : Env) (rem : Remote) : Except ExnKind (Option Nat) :=
  match env.nzbnaNzbid with
  | none => .error .typeError
  | some s => if pyIntOk s then .ok (sortCommand rem.fileList) else .error .valueError

/-- The `Prefix + 'DIRECTORY'` lookup of src/BannedFiles.py:223. -/
def mainDir (env : Env) : Option String :=
  if env.nzbnaEvent.isSome then env.nzbnaDirectory else env.nzbppDirectory

/-- The `Prefix + 'NZBNAME'` lookup of src/BannedFiles.py:224. -/
def mainName (env : Env) : Option String :=
  if env.nzbnaEvent.isSome then env.nzbnaNzbname else env.nzbppNzbname

/-- The reorder-trigger condition of src/BannedFiles.py:235-237. -/
def trigger (env : Env) : Bool :=
  env.nzbnaEvent == some "NZB_ADDED" ||
    (env.nzbnaEvent == some "FILE_DOWNLOADED" &&
      !(env.nzbprBannedFilesSorted == some "yes"))

/-- The sentinel line emitted together with a positive detection
(src/BannedFiles.py:168). -/
def bannedFileLine (item : String) : String :=
  "[NZB] NZBPR_PPSTATUS_BANNEDFILE=" ++ item

/-- The verdict sentinel lines of src/BannedFiles.py:248-270: on a match,
the banned-file name (emitted inside `detectBannedFile`), the persisted
Banned flag and the MARK=BAD command; on no match, the flag-clearing
sentinel exactly when the previously persisted flag is `yes`. -/
def verdictLines (env : Env) (fs : Fs) : List String :=
  match detectBannedFile (bannedExtensions env.nzbpoBannedExtensions) fs.workDirEntries with
  | some item =>
    [bannedFileLine item, "[NZB] NZBPR_PPSTATUS_BANNED=yes", "[NZB] MARK=BAD"]
  | none =>
    if env.nzbprPpstatusBanned == some "yes" then ["[NZB] NZBPR_PPSTATUS_BANNED="] else []

/-- Detection and end-of-run phase of `main` (src/BannedFiles.py:245-277
plus the final exit of line 282): scan the working directory, emit the
verdict sentinels, and run `cleanUp` when invoked as a post-processing
script (`Prefix == 'NZBPP_'`, i.e. no queue event). -/
def detectPhase (env : Env) (fs : Fs) (rem : Remote) (lines0 : List String)
    (moved : List Nat) : RunResult :=
  let lines1 := lines0 ++ verdictLines env fs
  if env.nzbnaEvent.isSome then
    ⟨.exited 93, lines1, moved, fs.markerFiles⟩
  else
    match cleanUp (mkCleanCtx env fs rem) with
    | .error e => ⟨.crashed e, lines1, moved, fs.markerFiles⟩
    | .ok remaining => ⟨.exited 93, lines1, moved, remaining⟩

/-- One whole invocation of the script: `main()` (src/BannedFiles.py:215-279)
followed by the unconditional `sys.exit(POSTPROCESS_SUCCESS)` of line 282.
The early-exit branches of `startCheck` are inlined, including the
`TypeError` of line 77 when the recorded banned-file name is absent and
the crash of any `cleanUp` call. -/
def main (env : Env) (fs : Fs) (rem : Remote) : RunResult :=
  match startCheck env fs with
  | .fatalUsage => ⟨.exited 1, [], [], fs.markerFiles⟩
  | .unknownEvent => ⟨.exited 0, [], [], fs.markerFiles⟩
  | .alreadyBad =>
    if env.nzbprPpstatusBanned == some "yes" && env.nzbprPpstatusBannedFile.isNone then
      ⟨.crashed .typeError, [], [], fs.markerFiles⟩
    else
      match cleanUp (mkCleanCtx env fs rem) with
      | .error e => ⟨.crashed e, [], [], fs.markerFiles⟩
      | .ok remaining => ⟨.exited 93, [], [], remaining⟩
  | .dirMissing =>
    match cleanUp (mkCleanCtx env fs rem) with
    | .error e => ⟨.crashed e, [], [], fs.markerFiles⟩
    | .ok remaining => ⟨.exited 95, [], [], remaining⟩
  | .totalFailure =>
    match cleanUp (mkCleanCtx env fs rem) with
    | .error e => ⟨.crashed e, [], [], fs.markerFiles⟩
    | .ok remaining => ⟨.exited 95, [], [], remaining⟩
  | .proceed =>
    if (mainDir env).isNone || (mainName env).isNone then
      ⟨.crashed .keyError, [], [], fs.markerFiles⟩
    else if trigger env then
      match sort_inner_files env rem with
      | .error e => ⟨.crashed e, [], [], fs.markerFiles⟩
      | .ok cmd =>
        if env.nzbnaEvent == some "NZB_ADDED" then
          ⟨.exited 95, ["[NZB] NZBPR_BANNEDFILES_SORTED=yes"], cmd.toList, fs.markerFiles⟩
        else
          detectPhase env fs rem ["[NZB] NZBPR_BANNEDFILES_SORTED=yes"] cmd.toList
    else
      detectPhase env fs rem [] []

/-! ### Concrete fixtures used by witnesses and counterexamples -/

/-- An environment with every variable absent. -/
def env0 : Env :=
  { nzbnaEvent := none, nzbppDirectory := none, nzbopArticleCache := none,
    nzbppStatus := none, nzbprPpstatusBanned := none, nzbprPpstatusBannedFile := none,
    nzbppTotalStatus := none, nzbppNzbid := none, nzbopTempDir := none,
    nzbnaDirectory := none, nzbppNzbname := none, nzbnaNzbname := none,
    nzbnaNzbid := none, nzbprBannedFilesSorted := none, nzbpoBannedExtensions := none }

/-- A benign filesystem: directories exist, nothing on disk. -/
def fs0 : Fs :=
  { ppDirExists := true, workDirEntries := [], tempDirExists := true,
    markerFiles := [], removeOk := fun _ => true }

/-- A host with an empty queue and an empty file listing. -/
def rem0 : Remote := { fileList := [], liveIds := [] }

/-- The split-volume listing of the spec's reorder example. -/
def exC4 : List (Nat × String) :=
  [(1, "a.part1.rar"), (2, "a.part2.rar"), (3, "a.part10.rar")]

/-- Housekeeping state with markers 1,2,3, live ids 2,3 and current id 2. -/
def ctxC5 : CleanCtx :=
  { nzbId := some "2", tempDir := some "/tmp", tempDirExists := true,
    markerFiles := ["1", "2", "3"], liveIds := ["2", "3"], removeOk := fun _ => true }

/-- Unknown queue event while the article-cache variable is absent. -/
def envC6 : Env := { env0 with nzbnaEvent := some "NZB_PAUSED" }

/-- Unknown queue event in an otherwise well-formed invocation. -/
def envC6w : Env :=
  { env0 with nzbnaEvent := some "NZB_STALLED", nzbopArticleCache := some "200" }

/-- A post-processing invocation whose previous verdict is Banned. -/
def envC7 : Env :=
  { env0 with
      nzbppDirectory := some "/dst"
      nzbopArticleCache := some "100"
      nzbprPpstatusBanned := some "yes"
      nzbppNzbname := some "show"
      nzbopTempDir := some "/tmp"
      nzbppNzbid := some "4" }

/-- A working directory holding one clean media file. -/
def fsC7 : Fs := { fs0 with workDirEntries := [("movie.mkv", true)] }

/-- An already-marked-bad invocation whose temp directory variable is
absent. -/
def envC8 : Env :=
  { env0 with
      nzbppDirectory := some "/d"
      nzbopArticleCache := some "1"
      nzbppStatus := some "FAILURE/BAD" }

/-- A queue-script invocation for a freshly added nzb. -/
def envC9 : Env :=
  { env0 with
      nzbnaEvent := some "NZB_ADDED"
      nzbopArticleCache := some "50"
      nzbnaDirectory := some "/dl"
      nzbnaNzbname := some "name"
      nzbnaNzbid := some "12" }

/-- A post-processing invocation that reaches the final housekeeping. -/
def env10 : Env :=
  { env0 with
      nzbppDirectory := some "/d"
      nzbopArticleCache := some "1"
      nzbppNzbname := some "n"
      nzbopTempDir := some "/t"
      nzbppNzbid := some "9" }

/-- Marker files 1,2,3 on disk, all removable. -/
def fs10 : Fs :=
  { fs0 with markerFiles := ["1", "2", "3"] }

/-- Live queue ids 2,3. -/
def rem10 : Remote := { fileList := [], liveIds := ["2", "3"] }

/-! ### Helper lemmas -/

/-- Reduction of `List.contains` to membership for strings. -/
theorem contains_eq_mem (l : List String) (s : String) :
    l.contains s = true ↔ s ∈ l := by
  induction l with
  | nil => simp [List.contains]
  | cons a l ih =>
    simp only [List.contains] at ih ⊢
    rw [List.elem_cons]
    by_cases h : s = a
    · subst h; simp
    · have hbeq : (s == a) = false := by
        rw [beq_eq_false_iff_ne]
        exact h
      simp only [List.elem, hbeq, ih]
      constructor
      · exact fun hm => List.mem_cons_of_mem a hm
      · intro hm
        rcases List.mem_cons.mp hm with rfl | hm2
        · exact absurd rfl h
        · exact hm2

/-- A successful `find?` splits the list at the first satisfying element. -/
theorem find?_first_spec {α : Type} (p : α → Bool) :
    ∀ (l : List α) (a : α), l.find? p = some a →
      ∃ l₁ l₂, l = l₁ ++ a :: l₂ ∧ p a = true ∧ ∀ x ∈ l₁, p x = false := by
  intro l
  induction l with
  | nil => intro a h; simp at h
  | cons b l ih =>
    intro a h
    by_cases hb : p b = true
    · rw [List.find?_cons_of_pos _ hb] at h
      obtain rfl : b = a := by injection h
      exact ⟨[], l, rfl, hb, by simp⟩
    · rw [List.find?_cons_of_neg _ hb] at h
      obtain ⟨l₁, l₂, rfl, hpa, hall⟩ := ih a h
      refine ⟨b :: l₁, l₂, rfl, hpa, ?_⟩
      intro x hx
      rcases List.mem_cons.mp hx with rfl | hx'
      · exact Bool.eq_false_iff.mpr hb
      · exact hall x hx'

/-! ### Claim C1 -/

/-- Claim C1 as frozen is refuted at a concrete input: with the configured
set `{.nfo}` the entry `readme.NFO` has an extension that is a
case-insensitive member of the set, yet `detectBannedFile` reports no
match, because the source compares extensions with plain string
equality. -/
theorem detect_banned_ci_cex :
    detectBannedFile (bannedExtensions (some ".nfo")) [("readme.NFO", true)] = none ∧
    lowerStr (splitextExt "readme.NFO") = ".nfo" ∧
    ".nfo" ∈ bannedExtensions (some ".nfo") := by
  refine ⟨rfl, rfl, ?_⟩
  simp [bannedExtensions, splitComma]

/-- Claim C1 amended: `detectBannedFile` reports a match iff some direct
regular-file entry's `splitext` extension is a case-SENSITIVE member of
the configured banned-extension list, and the reported filename is the
first such regular file in enumeration order. -/
theorem detect_banned_spec (cfg : Option String) (entries : List (String × Bool)) :
    ((detectBannedFile (bannedExtensions cfg) entries).isSome = true ↔
      ∃ e ∈ entries, e.2 = true ∧ splitextExt e.1 ∈ bannedExtensions cfg) ∧
    ∀ item, detectBannedFile (bannedExtensions cfg) entries = some item →
      ∃ l₁ l₂, regularFiles entries = l₁ ++ item :: l₂ ∧
        splitextExt item ∈ bannedExtensions cfg ∧
        ∀ x ∈ l₁, splitextExt x ∉ bannedExtensions cfg := by
  constructor
  · rw [detectBannedFile, List.find?_isSome]
    constructor
    · rintro ⟨x, hx, hpx⟩
      obtain ⟨e, he, rfl⟩ := List.mem_map.mp hx
      obtain ⟨he2, hreg⟩ := List.mem_filter.mp he
      exact ⟨e, he2, hreg, (contains_eq_mem _ _).mp hpx⟩
    · rintro ⟨e, he, hreg, hmem⟩
      refine ⟨e.1, List.mem_map.mpr ⟨e, List.mem_filter.mpr ⟨he, hreg⟩, rfl⟩, ?_⟩
      exact (contains_eq_mem _ _).mpr hmem
  · intro item hfind
    obtain ⟨l₁, l₂, hsplit, hpa, hall⟩ := find?_first_spec _ _ _ hfind
    refine ⟨l₁, l₂, hsplit, (contains_eq_mem _ _).mp hpa, ?_⟩
    intro x hx hmem
    have hc := hall x hx
    rw [(contains_eq_mem _ _).mpr hmem] at hc
    exact Bool.noConfusion hc

/-- Witness for the amended C1: with set `{.nfo, .exe}` and directory
entries `movie.mkv`, a subdirectory `sub`, and `readme.nfo`, the scanner
reports `readme.nfo`, the first regular file with a banned extension. -/
theorem detect_banned_spec_witness :
    ∃ l₁ l₂,
      regularFiles [("movie.mkv", true), ("sub", false), ("readme.nfo", true)] =
        l₁ ++ "readme.nfo" :: l₂ ∧
      splitextExt "readme.nfo" ∈ bannedExtensions (some ".nfo,.exe") ∧
      ∀ x ∈ l₁, splitextExt x ∉ bannedExtensions (some ".nfo,.exe") :=
  (detect_banned_spec (some ".nfo,.exe")
    [("movie.mkv", true), ("sub", false), ("readme.nfo", true)]).2 "readme.nfo" rfl

/-! ### Claim C2 -/

/-- Claim C2 as frozen is refuted at a concrete input: with a single
marker file `7` the host query is skipped, but the marker is nevertheless
deleted (the set difference against the empty id list keeps every
marker), so the directory contents change. -/
theorem cleanUp_single_marker_cex :
    cleanUpQueriesHost ["7"] = false ∧
    cleanUp { nzbId := none, tempDir := some "/tmp", tempDirExists := true,
              markerFiles := ["7"], liveIds := ["7"], removeOk := fun _ => true } =
      .ok [] := by
  exact ⟨rfl, rfl⟩

/-- Claim C2 amended: with at most one marker file, `cleanUp` skips the
host query, but every marker present (so the single one, if any) becomes a
deletion target, regardless of queue contents. -/
theorem cleanUp_single_marker_spec (nzbId : Option String) (files live : List String)
    (h : files.length ≤ 1) :
    cleanUpQueriesHost files = false ∧ cleanUpTargets nzbId files live = files := by
  have hnq : ¬ (1 < files.length) := by omega
  constructor
  · simp [cleanUpQueriesHost, hnq]
  · have hold : cleanUpOld files live = files := by
      rw [cleanUpOld, cleanUpNzbids, if_neg hnq]
      simp
    cases nzbId with
    | none => exact hold
    | some i =>
      have hT : cleanUpTargets (some i) files live =
          if i ∈ files ∧ i ∉ cleanUpOld files live then cleanUpOld files live ++ [i]
          else cleanUpOld files live := rfl
      rw [hT, hold]
      rw [if_neg]
      rintro ⟨h1, h2⟩
      exact h2 h1

/-- Witness for the amended C2: one marker `9`, current id `9`, nonempty
queue; the query is skipped and the marker is targeted. -/
theorem cleanUp_single_marker_witness :
    cleanUpQueriesHost ["9"] = false ∧
    cleanUpTargets (some "9") ["9"] ["1", "2"] = ["9"] :=
  cleanUp_single_marker_spec (some "9") ["9"] ["1", "2"] (by decide)

/-! ### Claim C3 -/

/-- Claim C3 is right about the intent but wrong about the code: an unset
or empty BannedExtensions option yields the list `[""]` (Python
`''.split(',') == ['']`), and a regular file without an extension, such as
`README`, then matches and is flagged. -/
theorem empty_config_flags_extensionless :
    bannedExtensions none = [""] ∧ bannedExtensions (some "") = [""] ∧
    detectBannedFile (bannedExtensions none) [("README", true)] = some "README" := by
  exact ⟨rfl, rfl, rfl⟩

/-! ### Claim C5 -/

/-- Claim C5 as frozen is refuted at a concrete input: markers
`{1, 2, 3}`, live ids `{2, 3}`, current download id `2`.  The claim says
markers 2 and 3 remain, but the code also deletes the current id's marker
even though it is live, leaving only `3`. -/
theorem cleanUp_live_current_deleted_cex :
    cleanUp ctxC5 = .ok ["3"] ∧ "2" ∈ ctxC5.liveIds ∧ "2" ∈ ctxC5.markerFiles := by
  refine ⟨rfl, ?_, ?_⟩ <;> simp [ctxC5]

/-- Claim C5 amended: with more than one marker, the deletion targets are
exactly the markers not in the live id set, plus the current download id's
marker whenever that marker exists (even if it is live); and `cleanUp`
never fails on account of per-file removal errors. -/
theorem cleanUp_stale_spec (nzbId : Option String) (files live : List String)
    (h : 1 < files.length) :
    (∀ f, f ∈ cleanUpTargets nzbId files live ↔
      (f ∈ files ∧ f ∉ live) ∨ (nzbId = some f ∧ f ∈ files)) ∧
    ∀ ctx : CleanCtx, ctx.tempDir.isSome = true → ctx.tempDirExists = true →
      (cleanUp ctx).isOk = true := by
  have hold : ∀ g, g ∈ cleanUpOld files live ↔ g ∈ files ∧ g ∉ live := by
    intro g
    rw [cleanUpOld, cleanUpNzbids, if_pos h]
    simp only [List.mem_filter, Bool.not_eq_true']
    constructor
    · rintro ⟨h1, h2⟩
      refine ⟨h1, fun hm => ?_⟩
      rw [(contains_eq_mem _ _).mpr hm] at h2
      exact Bool.noConfusion h2
    · rintro ⟨h1, h2⟩
      refine ⟨h1, ?_⟩
      cases hc : live.contains g with
      | false => rfl
      | true => exact absurd ((contains_eq_mem _ _).mp hc) h2
  constructor
  · intro f
    cases nzbId with
    | none =>
      have hT : cleanUpTargets none files live = cleanUpOld files live := rfl
      rw [hT, hold f]
      simp
    | some i =>
      have hT : cleanUpTargets (some i) files live =
          if i ∈ files ∧ i ∉ cleanUpOld files live then cleanUpOld files live ++ [i]
          else cleanUpOld files live := rfl
      rw [hT]
      by_cases hc : i ∈ files ∧ i ∉ cleanUpOld files live
      · rw [if_pos hc, List.mem_append, hold f]
        simp only [List.mem_singleton]
        constructor
        · rintro (h1 | rfl)
          · exact .inl h1
          · exact .inr ⟨rfl, hc.1⟩
        · rintro (h1 | ⟨heq, h2⟩)
          · exact .inl h1
          · exact .inr (Option.some.inj heq).symm
      · rw [if_neg hc, hold f]
        constructor
        · exact fun h1 => .inl h1
        · rintro (h1 | ⟨heq, h2⟩)
          · exact h1
          · obtain rfl : i = f := Option.some.inj heq
            rcases not_and_or.mp hc with hc1 | hc2
            · exact absurd h2 hc1
            · exact (hold i).mp (not_not.mp hc2)
  · intro ctx h1 h2
    obtain ⟨t, ht⟩ := Option.isSome_iff_exists.mp h1
    rw [cleanUp, ht]
    simp [h2, Except.isOk, Except.toBool]

/-- Witness for the amended C5: markers `{1, 2, 3}`, live ids `{2, 3}`,
current id absent from disk: exactly marker `1` is targeted. -/
theorem cleanUp_stale_witness :
    ("1" ∈ cleanUpTargets (some "9") ["1", "2", "3"] ["2", "3"] ↔
      ("1" ∈ ["1", "2", "3"] ∧ "1" ∉ ["2", "3"]) ∨
        (some "9" = some "1" ∧ "1" ∈ ["1", "2", "3"])) ∧
    (cleanUp ctxC5).isOk = true :=
  ⟨(cleanUp_stale_spec (some "9") ["1", "2", "3"] ["2", "3"] (by decide)).1 "1",
   (cleanUp_stale_spec (some "9") ["1", "2", "3"] ["2", "3"] (by decide)).2 ctxC5
     rfl rfl⟩

/-! ### Claim C4 -/

/-- One `sortStep` either keeps the state or records the current entry
with its captured number. -/
theorem sortStep_eq_or_entry (st : Option (Nat × Nat × String)) (e : Nat × String) :
    sortStep st e = st ∨
      ∃ n, rarNum e.2 = some n ∧ sortStep st e = some (n, e.1, e.2) := by
  cases h : rarNum e.2 with
  | none => exact .inl (by simp [sortStep, h])
  | some n =>
    cases st with
    | none => exact .inr ⟨n, rfl, by simp [sortStep, h]⟩
    | some t =>
      obtain ⟨fn, fid, fname⟩ := t
      by_cases hc : fn = 0 ∨ n > fn
      · exact .inr ⟨n, rfl, by simp [sortStep, h, hc]⟩
      · exact .inl (by simp [sortStep, h, hc])

/-- The selection fold either returns its start state or a scanned entry
together with that entry's captured number. -/
theorem sortFold_shape (es : List (Nat × String)) :
    ∀ st, es.foldl sortStep st = st ∨
      ∃ e ∈ es, ∃ n, rarNum e.2 = some n ∧
        es.foldl sortStep st = some (n, e.1, e.2) := by
  induction es with
  | nil => intro st; exact .inl rfl
  | cons a es ih =>
    intro st
    rw [List.foldl_cons]
    rcases ih (sortStep st a) with h | ⟨e, he, n, hn, hres⟩
    · rcases sortStep_eq_or_entry st a with h2 | ⟨n, hn, h2⟩
      · exact .inl (h.trans h2)
      · exact .inr ⟨a, by simp, n, hn, h.trans h2⟩
    · exact .inr ⟨e, List.mem_cons_of_mem a he, n, hn, hres⟩

/-- The recorded number never decreases along the fold. -/
theorem sortFold_mono (es : List (Nat × String)) :
    ∀ (fn fid : Nat) (fname : String),
      ∃ fn2 fid2 fname2,
        es.foldl sortStep (some (fn, fid, fname)) = some (fn2, fid2, fname2) ∧
          fn ≤ fn2 := by
  induction es with
  | nil => intro fn fid fname; exact ⟨fn, fid, fname, rfl, le_refl _⟩
  | cons a es ih =>
    intro fn fid fname
    rw [List.foldl_cons]
    have hstep : ∃ g gid gname,
        sortStep (some (fn, fid, fname)) a = some (g, gid, gname) ∧ fn ≤ g := by
      cases h : rarNum a.2 with
      | none => exact ⟨fn, fid, fname, by simp [sortStep, h], le_refl _⟩
      | some n =>
        by_cases hc : fn = 0 ∨ n > fn
        · refine ⟨n, a.1, a.2, by simp [sortStep, h, hc], ?_⟩
          rcases hc with hc | hc <;> omega
        · exact ⟨fn, fid, fname, by simp [sortStep, h, hc], le_refl _⟩
    obtain ⟨g, gid, gname, hs, hg⟩ := hstep
    rw [hs]
    obtain ⟨fn2, fid2, fname2, hres, hle⟩ := ih g gid gname
    exact ⟨fn2, fid2, fname2, hres, le_trans hg hle⟩

/-- If some scanned entry matches, the fold ends in a recorded state. -/
theorem sortFold_progress (es : List (Nat × String)) :
    ∀ st, (∃ e ∈ es, (rarNum e.2).isSome = true) →
      (es.foldl sortStep st).isSome = true := by
  induction es with
  | nil => rintro st ⟨e, he, _⟩; simp at he
  | cons a es ih =>
    rintro st ⟨e, he, hsome⟩
    rw [List.foldl_cons]
    rcases List.mem_cons.mp he with rfl | he2
    · obtain ⟨n, hn⟩ := Option.isSome_iff_exists.mp hsome
      have hstep : ∃ g gid gname, sortStep st e = some (g, gid, gname) := by
        cases st with
        | none => exact ⟨n, e.1, e.2, by simp [sortStep, hn]⟩
        | some t =>
          obtain ⟨fn, fid, fname⟩ := t
          by_cases hc : fn = 0 ∨ n > fn
          · exact ⟨n, e.1, e.2, by simp [sortStep, hn, hc]⟩
          · exact ⟨fn, fid, fname, by simp [sortStep, hn, hc]⟩
      obtain ⟨g, gid, gname, hs⟩ := hstep
      rw [hs]
      obtain ⟨fn2, fid2, fname2, hres, _⟩ := sortFold_mono es g gid gname
      simp [hres]
    · exact ih (sortStep st a) ⟨e, he2, hsome⟩

/-- Every matched number of a scanned entry is bounded by the recorded
number at the end of the fold. -/
theorem sortFold_max (es : List (Nat × String)) :
    ∀ st e, e ∈ es → ∀ m, rarNum e.2 = some m →
      ∃ fn fid fname, es.foldl sortStep st = some (fn, fid, fname) ∧ m ≤ fn := by
  induction es with
  | nil => intro st e he; simp at he
  | cons a es ih =>
    intro st e he m hm
    rw [List.foldl_cons]
    rcases List.mem_cons.mp he with rfl | he2
    · have hstep : ∃ g gid gname,
          sortStep st e = some (g, gid, gname) ∧ m ≤ g := by
        cases st with
        | none => exact ⟨m, e.1, e.2, by simp [sortStep, hm], le_refl _⟩
        | some t =>
          obtain ⟨fn, fid, fname⟩ := t
          by_cases hc : fn = 0 ∨ m > fn
          · exact ⟨m, e.1, e.2, by simp [sortStep, hm, hc], le_refl _⟩
          · refine ⟨fn, fid, fname, by simp [sortStep, hm, hc], ?_⟩
            push_neg at hc
            omega
      obtain ⟨g, gid, gname, hs, hg⟩ := hstep
      rw [hs]
      obtain ⟨fn2, fid2, fname2, hres, hle⟩ := sortFold_mono es g gid gname
      exact ⟨fn2, fid2, fname2, hres, le_trans hg hle⟩
    · exact ih (sortStep st a) e he2 m hm

/-- Claim C4 as frozen is refuted at a concrete input: `b.r10.mkv` is not
of the whole-name form `<name>.part<N>.rar` or `<name>.r<N>` (the spec
reading, `specArchiveN`), yet the left-anchored `re.match` of the source
accepts its prefix `b.r10`, so in the listing
`[(1, a.part2.rar), (2, b.r10.mkv)]` the code selects and moves file 2
instead of the only claim-pattern match, file 1. -/
theorem sort_pattern_anchoring_cex :
    sortCommand [(1, "a.part2.rar"), (2, "b.r10.mkv")] = some 2 ∧
    specArchiveN "b.r10.mkv" = none ∧
    specArchiveN "a.part2.rar" = some 2 ∧
    rarNum "b.r10.mkv" = some 10 := by
  exact ⟨rfl, rfl, rfl, rfl⟩

/-- Claim C4 amended: a listing entry qualifies when the source's
left-anchored case-insensitive regexes accept its filename, i.e. when the
name CONTAINS `.part<N>.rar` or `.r<N>` at some position (`rarNum`);
among qualifying entries one with the numerically maximal captured `N` is
selected, and, the file ids being nonzero, the move-to-top command is
issued for the selected entry. -/
theorem sort_selects_max_spec (es : List (Nat × String))
    (hmatch : ∃ e ∈ es, (rarNum e.2).isSome = true)
    (hids : ∀ e ∈ es, e.1 ≠ 0) :
    ∃ n fid fname, sortSelect es = some (n, fid, fname) ∧ (fid, fname) ∈ es ∧
      rarNum fname = some n ∧ (∀ e ∈ es, ∀ m, rarNum e.2 = some m → m ≤ n) ∧
      sortCommand es = some fid := by
  have hsome : (es.foldl sortStep none).isSome = true :=
    sortFold_progress es none hmatch
  rcases sortFold_shape es none with h | ⟨e, he, n, hn, hres⟩
  · rw [h] at hsome
    simp at hsome
  · have hsel : sortSelect es = some (n, e.1, e.2) := hres
    refine ⟨n, e.1, e.2, hsel, he, hn, ?_, ?_⟩
    · intro e2 he2 m hm
      obtain ⟨fn, fid, fname, hres2, hle⟩ := sortFold_max es none e2 he2 m hm
      have : (n, e.1, e.2) = (fn, fid, fname) := by
        have := hres.symm.trans hres2
        exact Option.some.inj this
      obtain ⟨h1, -, -⟩ := Prod.mk.injEq .. ▸ this
      omega
    · rw [sortCommand, hsel]
      simp [hids e he]

/-- Witness for the amended C4 at the spec's own example: among
`a.part1.rar`, `a.part2.rar`, `a.part10.rar` the entry with the
numerically greatest volume number, `a.part10.rar` (10 > 2), is selected
and its id 3 is sent to the host. -/
theorem sort_selects_max_witness :
    (∃ n fid fname, sortSelect exC4 = some (n, fid, fname) ∧ (fid, fname) ∈ exC4 ∧
      rarNum fname = some n ∧ (∀ e ∈ exC4, ∀ m, rarNum e.2 = some m → m ≤ n) ∧
      sortCommand exC4 = some fid) ∧
    sortSelect exC4 = some (10, 3, "a.part10.rar") :=
  ⟨sort_selects_max_spec exC4 (by decide) (by decide), rfl⟩

/-! ### Branch lemmas for the whole-invocation model -/

/-- `main` on the fatal-usage branch. -/
theorem main_fatalUsage (env : Env) (fs : Fs) (rem : Remote)
    (h : startCheck env fs = .fatalUsage) :
    main env fs rem = ⟨.exited 1, [], [], fs.markerFiles⟩ := by
  rw [main.eq_def, h]

/-- `main` on the unknown-event branch. -/
theorem main_unknownEvent (env : Env) (fs : Fs) (rem : Remote)
    (h : startCheck env fs = .unknownEvent) :
    main env fs rem = ⟨.exited 0, [], [], fs.markerFiles⟩ := by
  rw [main.eq_def, h]

/-- `main` on the already-marked-bad branch. -/
theorem main_alreadyBad (env : Env) (fs : Fs) (rem : Remote)
    (h : startCheck env fs = .alreadyBad) :
    main env fs rem =
      if env.nzbprPpstatusBanned == some "yes" && env.nzbprPpstatusBannedFile.isNone then
        ⟨.crashed .typeError, [], [], fs.markerFiles⟩
      else
        match cleanUp (mkCleanCtx env fs rem) with
        | .error e => ⟨.crashed e, [], [], fs.markerFiles⟩
        | .ok remaining => ⟨.exited 93, [], [], remaining⟩ := by
  rw [main.eq_def, h]

/-- `main` on the missing-directory branch. -/
theorem main_dirMissing (env : Env) (fs : Fs) (rem : Remote)
    (h : startCheck env fs = .dirMissing) :
    main env fs rem =
      match cleanUp (mkCleanCtx env fs rem) with
      | .error e => ⟨.crashed e, [], [], fs.markerFiles⟩
      | .ok remaining => ⟨.exited 95, [], [], remaining⟩ := by
  rw [main.eq_def, h]

/-- `main` on the total-failure branch. -/
theorem main_totalFailure (env : Env) (fs : Fs) (rem : Remote)
    (h : startCheck env fs = .totalFailure) :
    main env fs rem =
      match cleanUp (mkCleanCtx env fs rem) with
      | .error e => ⟨.crashed e, [], [], fs.markerFiles⟩
      | .ok remaining => ⟨.exited 95, [], [], remaining⟩ := by
  rw [main.eq_def, h]

/-- `main` on the proceed branch. -/
theorem main_proceed (env : Env) (fs : Fs) (rem : Remote)
    (h : startCheck env fs = .proceed) :
    main env fs rem =
      if (mainDir env).isNone || (mainName env).isNone then
        ⟨.crashed .keyError, [], [], fs.markerFiles⟩
      else if trigger env then
        match sort_inner_files env rem with
        | .error e => ⟨.crashed e, [], [], fs.markerFiles⟩
        | .ok cmd =>
          if env.nzbnaEvent == some "NZB_ADDED" then
            ⟨.exited 95, ["[NZB] NZBPR_BANNEDFILES_SORTED=yes"], cmd.toList, fs.markerFiles⟩
          else
            detectPhase env fs rem ["[NZB] NZBPR_BANNEDFILES_SORTED=yes"] cmd.toList
      else
        detectPhase env fs rem [] [] := by
  rw [main.eq_def, h]

/-- `main` when the reorder trigger fires and the remote call succeeds. -/
theorem main_triggered (env : Env) (fs : Fs) (rem : Remote) (cmd : Option Nat)
    (hgate : startCheck env fs = .proceed)
    (hdir : (mainDir env).isSome = true) (hname : (mainName env).isSome = true)
    (ht : trigger env = true)
    (hs : sort_inner_files env rem = .ok cmd) :
    main env fs rem =
      if env.nzbnaEvent == some "NZB_ADDED" then
        ⟨.exited 95, ["[NZB] NZBPR_BANNEDFILES_SORTED=yes"], cmd.toList, fs.markerFiles⟩
      else detectPhase env fs rem ["[NZB] NZBPR_BANNEDFILES_SORTED=yes"] cmd.toList := by
  obtain ⟨d, hd⟩ := Option.isSome_iff_exists.mp hdir
  obtain ⟨nm, hnm⟩ := Option.isSome_iff_exists.mp hname
  rw [main_proceed env fs rem hgate, hd, hnm]
  simp only [Option.isNone_some, Bool.or_self, Bool.false_eq_true, if_false]
  rw [if_pos ht, hs]

/-- `main` when the reorder trigger does not fire. -/
theorem main_untriggered (env : Env) (fs : Fs) (rem : Remote)
    (hgate : startCheck env fs = .proceed)
    (hdir : (mainDir env).isSome = true) (hname : (mainName env).isSome = true)
    (ht : trigger env = false) :
    main env fs rem = detectPhase env fs rem [] [] := by
  obtain ⟨d, hd⟩ := Option.isSome_iff_exists.mp hdir
  obtain ⟨nm, hnm⟩ := Option.isSome_iff_exists.mp hname
  rw [main_proceed env fs rem hgate, hd, hnm]
  simp only [Option.isNone_some, Bool.or_self, Bool.false_eq_true, if_false, ht]

/-- The sentinel lines of the detection phase are the carried-over lines
followed by the verdict lines. -/
theorem detectPhase_nzbLines (env : Env) (fs : Fs) (rem : Remote)
    (lines0 : List String) (moved : List Nat) :
    (detectPhase env fs rem lines0 moved).nzbLines = lines0 ++ verdictLines env fs := by
  unfold detectPhase
  cases hev : env.nzbnaEvent.isSome
  · cases hcl : cleanUp (mkCleanCtx env fs rem) <;> simp [hev, hcl]
  · simp [hev]

/-- The detection phase issues no move command of its own. -/
theorem detectPhase_moveTop (env : Env) (fs : Fs) (rem : Remote)
    (lines0 : List String) (moved : List Nat) :
    (detectPhase env fs rem lines0 moved).moveTop = moved := by
  unfold detectPhase
  cases hev : env.nzbnaEvent.isSome
  · cases hcl : cleanUp (mkCleanCtx env fs rem) <;> simp [hev, hcl]
  · simp [hev]

/-- A successful `cleanUp` only ever leaves behind markers that were
already on disk. -/
theorem cleanUp_subset (ctx : CleanCtx) (l : List String)
    (h : cleanUp ctx = .ok l) : ∀ f ∈ l, f ∈ ctx.markerFiles := by
  intro f hf
  rw [cleanUp.eq_def] at h
  cases htd : ctx.tempDir with
  | none => rw [htd] at h; exact Except.noConfusion h
  | some t =>
    rw [htd] at h
    by_cases hex : ctx.tempDirExists = true
    · rw [if_pos hex] at h
      obtain rfl := Except.ok.inj h
      exact (List.mem_filter.mp hf).1
    · rw [if_neg hex] at h
      exact Except.noConfusion h

/-- The detection phase never adds marker files. -/
theorem detectPhase_markers (env : Env) (fs : Fs) (rem : Remote)
    (lines0 : List String) (moved : List Nat) :
    ∀ f ∈ (detectPhase env fs rem lines0 moved).markers, f ∈ fs.markerFiles := by
  intro f hf
  unfold detectPhase at hf
  cases hev : env.nzbnaEvent.isSome <;> rw [hev] at hf
  · revert hf
    cases hcl : cleanUp (mkCleanCtx env fs rem) with
    | error e => simp
    | ok remaining =>
      intro hf
      simp at hf
      exact cleanUp_subset (mkCleanCtx env fs rem) remaining hcl f hf
  · simpa using hf

/-- When the invocation is a post-processing call and `cleanUp` dies, the
detection phase ends in a crash. -/
theorem detectPhase_crash (env : Env) (fs : Fs) (rem : Remote)
    (lines0 : List String) (moved : List Nat) (e : ExnKind)
    (hev : env.nzbnaEvent = none)
    (hcl : cleanUp (mkCleanCtx env fs rem) = .error e) :
    (detectPhase env fs rem lines0 moved).outcome = .crashed e := by
  unfold detectPhase
  simp [hev, hcl]

/-- The banned-file sentinel is never the flag-clearing sentinel. -/
theorem bannedFileLine_ne_clear (item : String) :
    bannedFileLine item ≠ "[NZB] NZBPR_PPSTATUS_BANNED=" := by
  intro h
  have hlen := congrArg String.length h
  rw [bannedFileLine, String.length_append] at hlen
  have h1 : ("[NZB] NZBPR_PPSTATUS_BANNEDFILE=").length = 32 := rfl
  have h2 : ("[NZB] NZBPR_PPSTATUS_BANNED=").length = 28 := rfl
  rw [h1, h2] at hlen
  omega

/-- Membership of the flag-clearing sentinel among the verdict lines is
exactly the no-match-and-previously-banned condition. -/
theorem clear_mem_verdictLines (env : Env) (fs : Fs) :
    ("[NZB] NZBPR_PPSTATUS_BANNED=" ∈ verdictLines env fs ↔
      detectBannedFile (bannedExtensions env.nzbpoBannedExtensions) fs.workDirEntries = none ∧
        env.nzbprPpstatusBanned = some "yes") := by
  cases hdet : detectBannedFile (bannedExtensions env.nzbpoBannedExtensions) fs.workDirEntries with
  | some item =>
    have hv : verdictLines env fs =
        [bannedFileLine item, "[NZB] NZBPR_PPSTATUS_BANNED=yes", "[NZB] MARK=BAD"] := by
      unfold verdictLines
      rw [hdet]
    rw [hv]
    constructor
    · intro hmem
      rcases List.mem_cons.mp hmem with h | hmem
      · exact absurd h.symm (bannedFileLine_ne_clear item)
      rcases List.mem_cons.mp hmem with h | hmem
      · exact absurd h (by decide)
      rcases List.mem_cons.mp hmem with h | hmem
      · exact absurd h (by decide)
      · simp at hmem
    · rintro ⟨h, -⟩
      exact Option.noConfusion h
  | none =>
    have hv : verdictLines env fs =
        if env.nzbprPpstatusBanned == some "yes" then ["[NZB] NZBPR_PPSTATUS_BANNED="]
        else [] := by
      unfold verdictLines
      rw [hdet]
    rw [hv]
    by_cases hb : env.nzbprPpstatusBanned = some "yes"
    · rw [beq_iff_eq.mpr hb]
      simp [hb]
    · rw [beq_eq_false_iff_ne.mpr hb]
      simp [hb]

/-- Membership of the flag-clearing sentinel in the output of the
detection phase, for carried-over lines not containing it. -/
theorem clear_mem_detectPhase (env : Env) (fs : Fs) (rem : Remote)
    (lines0 : List String) (moved : List Nat)
    (h0 : "[NZB] NZBPR_PPSTATUS_BANNED=" ∉ lines0) :
    ("[NZB] NZBPR_PPSTATUS_BANNED=" ∈ (detectPhase env fs rem lines0 moved).nzbLines ↔
      detectBannedFile (bannedExtensions env.nzbpoBannedExtensions) fs.workDirEntries = none ∧
        env.nzbprPpstatusBanned = some "yes") := by
  rw [detectPhase_nzbLines, List.mem_append, clear_mem_verdictLines]
  simp [h0]

/-! ### Claim C6 -/

/-- Claim C6 as frozen is refuted at a concrete input: event value
`NZB_PAUSED` is outside the known set, yet because `NZBOP_ARTICLECACHE`
is absent the version check of src/BannedFiles.py:61 fires first and the
script exits with the fatal usage status 1. -/
theorem unknown_event_missing_cache_cex :
    startCheck envC6 fs0 = .fatalUsage ∧
    (main envC6 fs0 rem0).outcome = .exited 1 ∧
    ¬ ("NZB_PAUSED" ∈ knownEvents) := by
  refine ⟨rfl, ?_, by decide⟩
  rw [main_fatalUsage envC6 fs0 rem0 rfl]

/-- Claim C6 amended: whenever the version-check variable
`NZBOP_ARTICLECACHE` is present, an event value outside the known set
always yields the neutral exit 0 and never the fatal status 1, for all
values of the remaining context fields. -/
theorem unknown_event_neutral_spec (env : Env) (fs : Fs) (rem : Remote) (e : String)
    (hev : env.nzbnaEvent = some e) (hunk : e ∉ knownEvents)
    (hac : env.nzbopArticleCache.isSome = true) :
    startCheck env fs = .unknownEvent ∧
    (main env fs rem).outcome = .exited 0 ∧
    (main env fs rem).outcome ≠ .exited 1 := by
  have hc : knownEvents.contains e = false := by
    cases hcc : knownEvents.contains e with
    | false => rfl
    | true => exact absurd ((contains_eq_mem _ _).mp hcc) hunk
  have hstart : startCheck env fs = .unknownEvent := by
    unfold startCheck
    rw [hev]
    simp [hac, hc]
    intro hmem
    exact absurd hmem hunk
  rw [main_unknownEvent env fs rem hstart]
  exact ⟨hstart, rfl, by simp⟩

/-- Witness for the amended C6: unknown event `NZB_STALLED` with the
article-cache variable present exits neutrally. -/
theorem unknown_event_neutral_witness :
    startCheck envC6w fs0 = .unknownEvent ∧
    (main envC6w fs0 rem0).outcome = .exited 0 ∧
    (main envC6w fs0 rem0).outcome ≠ .exited 1 :=
  unknown_event_neutral_spec envC6w fs0 rem0 "NZB_STALLED" rfl (by decide) rfl

/-! ### Claim C7 -/

/-- Claim C7: on every invocation that reaches the scan (gate passed, the
context lookups succeed, not the add-event early exit, and the reorder
call, if triggered, succeeds), the flag-clearing sentinel
`NZBPR_PPSTATUS_BANNED=` is emitted iff the scanner found nothing AND the
previously persisted verdict was `yes`. -/
theorem clear_banned_flag_spec (env : Env) (fs : Fs) (rem : Remote)
    (hgate : startCheck env fs = .proceed)
    (hdir : (mainDir env).isSome = true) (hname : (mainName env).isSome = true)
    (hnotadd : env.nzbnaEvent ≠ some "NZB_ADDED")
    (hsort : trigger env = true → (sort_inner_files env rem).isOk = true) :
    ("[NZB] NZBPR_PPSTATUS_BANNED=" ∈ (main env fs rem).nzbLines ↔
      detectBannedFile (bannedExtensions env.nzbpoBannedExtensions) fs.workDirEntries = none ∧
        env.nzbprPpstatusBanned = some "yes") := by
  by_cases ht : trigger env = true
  · have hok := hsort ht
    obtain ⟨cmd, hs⟩ : ∃ cmd, sort_inner_files env rem = .ok cmd := by
      cases hs2 : sort_inner_files env rem with
      | ok c => exact ⟨c, rfl⟩
      | error e =>
        rw [hs2] at hok
        exact absurd hok (by simp [Except.isOk, Except.toBool])
    rw [main_triggered env fs rem cmd hgate hdir hname ht hs]
    rw [show (env.nzbnaEvent == some "NZB_ADDED") = false from
      beq_eq_false_iff_ne.mpr hnotadd]
    simp only [Bool.false_eq_true, if_false]
    exact clear_mem_detectPhase env fs rem _ _ (by decide)
  · have ht2 : trigger env = false := by simpa using ht
    rw [main_untriggered env fs rem hgate hdir hname ht2]
    exact clear_mem_detectPhase env fs rem _ _ (by simp)

/-- Witness for C7: a post-processing invocation with a clean directory
and a previously persisted Banned verdict emits the clearing sentinel. -/
theorem clear_banned_flag_witness :
    ("[NZB] NZBPR_PPSTATUS_BANNED=" ∈ (main envC7 fsC7 rem0).nzbLines ↔
      detectBannedFile (bannedExtensions envC7.nzbpoBannedExtensions) fsC7.workDirEntries = none ∧
        envC7.nzbprPpstatusBanned = some "yes") :=
  clear_banned_flag_spec envC7 fsC7 rem0 rfl rfl rfl (by decide) (by decide)

/-! ### Claim C8 -/

/-- Claim C8: when `NZBOP_TEMPDIR` is unset (`None + str` raises
`TypeError`) or the marker subdirectory is missing (`os.listdir` raises),
every `cleanUp` call dies, and so every invocation path that runs
housekeeping - the already-banned, directory-missing and total-failure
early exits, and the post-processing scan path - ends in a crash instead
of its documented exit status. -/
theorem cleanUp_crash_spec (env : Env) (fs : Fs) (rem : Remote)
    (hbad : env.nzbopTempDir = none ∨ fs.tempDirExists = false) :
    (∀ ctx : CleanCtx, ctx.tempDir = none ∨ ctx.tempDirExists = false →
      ∃ e, cleanUp ctx = .error e) ∧
    ((startCheck env fs = .alreadyBad ∨ startCheck env fs = .dirMissing ∨
        startCheck env fs = .totalFailure) →
      ∃ e, (main env fs rem).outcome = .crashed e) ∧
    (startCheck env fs = .proceed → env.nzbnaEvent = none →
      env.nzbppNzbname.isSome = true →
      ∃ e, (main env fs rem).outcome = .crashed e) := by
  have hany : ∀ ctx : CleanCtx, ctx.tempDir = none ∨ ctx.tempDirExists = false →
      ∃ e, cleanUp ctx = .error e := by
    intro ctx h
    rcases h with h | h
    · exact ⟨.typeError, by rw [cleanUp.eq_def, h]⟩
    · cases htd : ctx.tempDir with
      | none => exact ⟨.typeError, by rw [cleanUp.eq_def, htd]⟩
      | some t =>
        refine ⟨.fileNotFound, ?_⟩
        rw [cleanUp.eq_def, htd, if_neg (by simp [h])]
  obtain ⟨e0, he0⟩ : ∃ e, cleanUp (mkCleanCtx env fs rem) = .error e := by
    apply hany
    rcases hbad with h | h
    · exact .inl h
    · exact .inr h
  refine ⟨hany, ?_, ?_⟩
  · rintro (hg | hg | hg)
    · by_cases hw : (env.nzbprPpstatusBanned == some "yes" &&
          env.nzbprPpstatusBannedFile.isNone) = true
      · exact ⟨.typeError, by rw [main_alreadyBad env fs rem hg, if_pos hw]⟩
      · exact ⟨e0, by rw [main_alreadyBad env fs rem hg, if_neg hw, he0]⟩
    · exact ⟨e0, by rw [main_dirMissing env fs rem hg, he0]⟩
    · exact ⟨e0, by rw [main_totalFailure env fs rem hg, he0]⟩
  · intro hp hev hnm
    have hpd : env.nzbppDirectory.isSome = true := by
      cases hpd2 : env.nzbppDirectory.isSome with
      | true => rfl
      | false =>
        unfold startCheck at hp
        simp [hev, hpd2] at hp
    have hdir : (mainDir env).isSome = true := by
      unfold mainDir
      rw [hev]
      simpa using hpd
    have hname2 : (mainName env).isSome = true := by
      unfold mainName
      rw [hev]
      simpa using hnm
    have ht : trigger env = false := by
      unfold trigger
      rw [hev]
      rfl
    refine ⟨e0, ?_⟩
    rw [main_untriggered env fs rem hp hdir hname2 ht]
    exact detectPhase_crash env fs rem [] [] e0 hev he0

/-- Witness for C8: an already-marked-bad invocation with `NZBOP_TEMPDIR`
unset crashes instead of exiting with the success status. -/
theorem cleanUp_crash_witness :
    ∃ e, (main envC8 fs0 rem0).outcome = .crashed e :=
  (cleanUp_crash_spec envC8 fs0 rem0 (.inl rfl)).2.1 (.inl rfl)

/-! ### Claim C9 -/

/-- Claim C9: whenever the reorder trigger fires (event NZB_ADDED, or
FILE_DOWNLOADED without the sorted flag) and the invocation survives to
the trigger, the `NZBPR_BANNEDFILES_SORTED=yes` sentinel is emitted for
EVERY remote listing, while the move command is issued only as the
listing warrants (`sortCommand`) - in particular the sentinel appears even
when no filename matches and no move command is sent. -/
theorem sorted_flag_unconditional_spec (env : Env) (fs : Fs) (rem : Remote)
    (hgate : startCheck env fs = .proceed)
    (hdir : (mainDir env).isSome = true) (hname : (mainName env).isSome = true)
    (htr : trigger env = true)
    (hid : ∃ s, env.nzbnaNzbid = some s ∧ pyIntOk s = true) :
    "[NZB] NZBPR_BANNEDFILES_SORTED=yes" ∈ (main env fs rem).nzbLines ∧
    (main env fs rem).moveTop = (sortCommand rem.fileList).toList := by
  obtain ⟨s, hs, hok⟩ := hid
  have hsort : sort_inner_files env rem = .ok (sortCommand rem.fileList) := by
    rw [sort_inner_files.eq_def, hs]
    simp [hok]
  rw [main_triggered env fs rem (sortCommand rem.fileList) hgate hdir hname htr hsort]
  by_cases hadd : (env.nzbnaEvent == some "NZB_ADDED") = true
  · rw [if_pos hadd]
    exact ⟨by simp, rfl⟩
  · rw [if_neg hadd]
    constructor
    · rw [detectPhase_nzbLines]
      exact List.mem_append_left _ (by simp)
    · rw [detectPhase_moveTop]

/-- Witness for C9: a fresh NZB_ADDED invocation with an empty remote
listing emits the sorted sentinel although no move command is issued. -/
theorem sorted_flag_unconditional_witness :
    "[NZB] NZBPR_BANNEDFILES_SORTED=yes" ∈ (main envC9 fs0 rem0).nzbLines ∧
    (main envC9 fs0 rem0).moveTop = (sortCommand rem0.fileList).toList :=
  sorted_flag_unconditional_spec envC9 fs0 rem0 rfl rfl rfl rfl ⟨"12", rfl, rfl⟩

/-! ### Claim C10 -/

/-- Claim C10: no invocation path ever creates or writes a marker file;
the final marker-directory contents are always a subset of the initial
ones, for every environment, filesystem and host state. -/
theorem markers_never_created_spec (env : Env) (fs : Fs) (rem : Remote) :
    ∀ f ∈ (main env fs rem).markers, f ∈ fs.markerFiles := by
  intro f hf
  cases hg : startCheck env fs with
  | fatalUsage =>
    rw [main_fatalUsage env fs rem hg] at hf
    exact hf
  | unknownEvent =>
    rw [main_unknownEvent env fs rem hg] at hf
    exact hf
  | alreadyBad =>
    rw [main_alreadyBad env fs rem hg] at hf
    by_cases hw : (env.nzbprPpstatusBanned == some "yes" &&
        env.nzbprPpstatusBannedFile.isNone) = true
    · rw [if_pos hw] at hf
      exact hf
    · rw [if_neg hw] at hf
      revert hf
      cases hcl : cleanUp (mkCleanCtx env fs rem) with
      | error e => exact fun hf => hf
      | ok remaining => exact fun hf => cleanUp_subset _ _ hcl f hf
  | dirMissing =>
    rw [main_dirMissing env fs rem hg] at hf
    revert hf
    cases hcl : cleanUp (mkCleanCtx env fs rem) with
    | error e => exact fun hf => hf
    | ok remaining => exact fun hf => cleanUp_subset _ _ hcl f hf
  | totalFailure =>
    rw [main_totalFailure env fs rem hg] at hf
    revert hf
    cases hcl : cleanUp (mkCleanCtx env fs rem) with
    | error e => exact fun hf => hf
    | ok remaining => exact fun hf => cleanUp_subset _ _ hcl f hf
  | proceed =>
    rw [main_proceed env fs rem hg] at hf
    by_cases hdn : ((mainDir env).isNone || (mainName env).isNone) = true
    · rw [if_pos hdn] at hf
      exact hf
    · rw [if_neg hdn] at hf
      by_cases ht : trigger env = true
      · rw [if_pos ht] at hf
        revert hf
        cases hs : sort_inner_files env rem with
        | error e => exact fun hf => hf
        | ok cmd =>
          intro hf
          have hf2 : f ∈ (if env.nzbnaEvent == some "NZB_ADDED" then
              ({ outcome := .exited 95,
                 nzbLines := ["[NZB] NZBPR_BANNEDFILES_SORTED=yes"],
                 moveTop := cmd.toList, markers := fs.markerFiles } : RunResult)
            else
              detectPhase env fs rem ["[NZB] NZBPR_BANNEDFILES_SORTED=yes"]
                cmd.toList).markers := hf
          by_cases hadd : (env.nzbnaEvent == some "NZB_ADDED") = true
          · rw [if_pos hadd] at hf2
            exact hf2
          · rw [if_neg hadd] at hf2
            exact detectPhase_markers env fs rem _ _ f hf2
      · rw [if_neg ht] at hf
        exact detectPhase_markers env fs rem _ _ f hf

/-- Witness for C10: a post-processing run over markers 1,2,3 with live
ids 2,3 leaves marker 2 on disk, and indeed marker 2 was there before. -/
theorem markers_never_created_witness :
    "2" ∈ fs10.markerFiles :=
  markers_never_created_spec env10 fs10 rem10 "2" (by decide)

end BannedFiles
